import Mathlib

/-!
Verification of the layoutimg / tileimg repository (jiro4989): a CLI tool
that draws grid-cell rectangles onto a raster image.

The repository has two variants of `Main`:
  * the base variant (src/unnamed/part_000, `layoutimg`), where a color
    prefix is looked up in the color table and a miss silently yields the
    zero-value RGBA;
  * the extended variant (src/main.go, `tileimg`), where a table miss falls
    back to parsing the color as a decimal `R,G,B` triplet and a parse
    failure exits with the color-error code.

Go strings are embedded as `List Char`.  `strings.Split` with a one-character
separator is `goSplit`, `strings.Contains` with a one-character needle is
`goContains`, `strconv.Atoi` is `goAtoi` (sign, decimal digits, 64-bit range
check) and `strconv.ParseUint(s, 10, 8)` is `parseUint8`.  Fallible Go
functions returning `err` become `Option`; an out-of-range slice index, which
in Go aborts the process by runtime panic, is a dedicated constructor of the
result type rather than a value.
-/

/-- Go `strings.Split s sep` for a one-character separator `sep`, as an
accumulator recursion over the characters: `acc` holds the characters of the
current field in reverse. `strings.Split "" sep = [""]` holds here too. -/
def splitOnAux (sep : Char) : List Char → List Char → List (List Char)
  | [], acc => [acc.reverse]
  | c :: cs, acc =>
    if c = sep then acc.reverse :: splitOnAux sep cs []
    else splitOnAux sep cs (c :: acc)

/-- Go `strings.Split s sep` for a one-character separator. -/
def goSplit (s : List Char) (sep : Char) : List (List Char) :=
  splitOnAux sep s []

/-- Go `strings.Contains s sub` for a one-character `sub`: substring
containment of a single character is membership. -/
def goContains (s : List Char) (c : Char) : Bool :=
  decide (c ∈ s)

/-- Decimal value of a digit string (used only on all-digit lists). -/
def digitsVal (l : List Char) : Nat :=
  l.foldl (fun acc c => acc * 10 + (c.toNat - 48)) 0

/-- The digits part of Go's `strconv` decimal parsing: at least one
character, all ASCII digits. -/
def parseDigits (l : List Char) : Option Nat :=
  if !l.isEmpty && l.all Char.isDigit then some (digitsVal l) else none

/-- Largest value of Go's 64-bit `int`. -/
def int64Max : Int := 9223372036854775807

/-- Absolute value of the smallest Go 64-bit `int`. -/
def int64MinAbs : Int := 9223372036854775808

/-- Go `strconv.Atoi`: optional sign, then a non-empty run of decimal
digits, with the 64-bit range check of `ParseInt(s, 10, 64)`. -/
def goAtoi (s : List Char) : Option Int :=
  match s with
  | [] => none
  | c :: rest =>
    if c = '-' then
      (parseDigits rest).bind
        (fun n => if (n : Int) ≤ int64MinAbs then some (-(n : Int)) else none)
    else if c = '+' then
      (parseDigits rest).bind
        (fun n => if (n : Int) ≤ int64Max then some ((n : Int)) else none)
    else
      (parseDigits (c :: rest)).bind
        (fun n => if (n : Int) ≤ int64Max then some ((n : Int)) else none)

/-- Go `strconv.ParseUint(s, 10, 8)`: a non-empty all-digit string whose
value fits in 8 bits; no sign is permitted. -/
def parseUint8 (s : List Char) : Option Nat :=
  if !s.isEmpty && s.all Char.isDigit then
    if digitsVal s < 256 then some (digitsVal s) else none
  else none

/-- `splitHyphen` from the source: if the token contains a hyphen, split on
it and `Atoi` the first two fields (`xs[0]`, `xs[1]`; further fields are
never read); otherwise `Atoi` the whole token and return it twice.  When the
token contains a hyphen the split has at least two fields, so the `getD`
defaults are never taken. -/
def splitHyphen (s : List Char) : Option (Int × Int) :=
  if goContains s '-' then
    let xs := goSplit s '-'
    match goAtoi (xs.getD 0 []) with
    | none => none
    | some a =>
      match goAtoi (xs.getD 1 []) with
      | none => none
      | some b => some (a, b)
  else
    match goAtoi s with
    | none => none
    | some a => some (a, a)

/-- `minMaxXY` from the source: require a comma, split on it, and
`splitHyphen` the first two fields (`fs[0]`, `fs[1]`), returning
`(x, y, x2, y2)`. -/
def minMaxXY (s : List Char) : Option (Int × Int × Int × Int) :=
  if goContains s ',' then
    let fs := goSplit s ','
    match splitHyphen (fs.getD 0 []) with
    | none => none
    | some (x, x2) =>
      match splitHyphen (fs.getD 1 []) with
      | none => none
      | some (y, y2) => some (x, y, x2, y2)
  else none

/-- Abbreviation turning a string literal into the `List Char` the embedding
works over. -/
def str (s : String) : List Char :=
  s.data

/-- The source's exit codes (the `iota` block of src/main.go; the base
variant stops at `exitCodeImageEncodeError`). -/
def exitCodeOK : Nat := 0

/-- Exit code for an argument-parsing error. -/
def exitCodeArgsError : Nat := 1

/-- Exit code for an output-file-open error. -/
def exitCodeOpenFileError : Nat := 2

/-- Exit code for a rectangle / coordinate-parse error. -/
def exitCodeRectangleError : Nat := 3

/-- Exit code for an image-encode error. -/
def exitCodeImageEncodeError : Nat := 4

/-- Exit code for a color-parse error (extended variant only). -/
def exitCodeColorError : Nat := 5

/-- `rectangleParam` from the source `Main`: the grid coordinate being
mapped together with the grid configuration (columns, rows, canvas size in
pixels, padding). -/
structure rectangleParam where
  x : Int
  y : Int
  column : Int
  row : Int
  width : Int
  height : Int
  pad : Int
deriving DecidableEq

/-- An axis-aligned pixel rectangle, `image.Rectangle` with its `Min` and
`Max` points flattened to four integers. -/
structure Rect where
  minX : Int
  minY : Int
  maxX : Int
  maxY : Int
deriving DecidableEq

/-- Modelled from the spec: the repository file defining `rectangle` is not
under src/ (only its caller `Main` is).  Spec §4.1: `cellW = canvasWidth /
columns`, `cellH = canvasHeight / rows` with truncating integer division;
`minX = col*cellW + pad`, `minY = row*cellH + pad`, `maxX = (col+1)*cellW -
pad`, `maxY = (row+1)*cellH - pad`; no clamping.  `Int.tdiv` is Lean's
truncating (toward-zero) division, matching Go's `/` on `int`. -/
def rectangle (p : rectangleParam) : Rect :=
  let cellW := Int.tdiv p.width p.column
  let cellH := Int.tdiv p.height p.row
  ⟨p.x * cellW + p.pad, p.y * cellH + p.pad,
   (p.x + 1) * cellW - p.pad, (p.y + 1) * cellH - p.pad⟩

/-- Modelled from the spec: the repository file defining `draw` /
`drawParam` is not under src/.  Spec §4.3: the merged drawable rectangle
takes its top-left corner from the start cell's rectangle and its
bottom-right corner from the end cell's rectangle positionally, with no
min/max over the corners; reversed ranges pass through unchanged. -/
def mergedRect (r r2 : Rect) : Rect :=
  ⟨r.minX, r.minY, r2.maxX, r2.maxY⟩

/-- `color.RGBA`: four channels.  Go's channels are `uint8`; every value
this model constructs is below 256. -/
structure RGBA where
  r : Nat
  g : Nat
  b : Nat
  a : Nat
deriving DecidableEq

/-- Modelled from the spec: the repository file defining the color table is
not under src/ (only the lookups `colors[...]` are).  Spec: a fixed
name→RGBA table; the names below are the ones the spec and the usage text
mention (defaults white/black/none, examples red/green/blue).  The theorems
below depend only on which names are absent from the table, never on the
RGBA values of the present ones. -/
def colors : List (List Char × RGBA) :=
  [(str "white", ⟨255, 255, 255, 255⟩),
   (str "black", ⟨0, 0, 0, 255⟩),
   (str "red", ⟨255, 0, 0, 255⟩),
   (str "green", ⟨0, 255, 0, 255⟩),
   (str "blue", ⟨0, 0, 255, 255⟩),
   (str "none", ⟨0, 0, 0, 0⟩)]

/-- Go's two-result map read `c, ok := colors[name]`. -/
def lookupColor (s : List Char) : Option RGBA :=
  (colors.find? (fun p => p.1 = s)).map (fun p => p.2)

/-- Go's one-result map read `colors[name]`: the zero value
`color.RGBA{0,0,0,0}` when the name is absent. -/
def lookupColorD (s : List Char) : RGBA :=
  (lookupColor s).getD ⟨0, 0, 0, 0⟩

/-- The configuration fields of `Config` that the render loop reads; width
and height are the canvas bounds (`dest.Bounds().Max`, which equals the
configured width/height for a non-negative size). -/
structure Config where
  width : Int
  height : Int
  column : Int
  row : Int
  pad : Int
  fillColor : List Char
deriving DecidableEq

/-- The defaults of the usage text: 200×200 canvas, 4×4 grid, pad 5, fill
color name "none". -/
def defaultConfig : Config :=
  ⟨200, 200, 4, 4, 5, str "none"⟩

/-- The coordinate part of the loop body of `Main`: parse the cell spec with
`minMaxXY`, map the start cell `(x, y)` and the end cell `(x2, y2)` through
`rectangle`, and hand the renderer the positional merge (`dp.min` from the
first, `dp.max` from the second). -/
def specToRect (cfg : Config) (xy : List Char) : Option Rect :=
  match minMaxXY xy with
  | none => none
  | some (x, y, x2, y2) =>
    some (mergedRect
      (rectangle ⟨x, y, cfg.column, cfg.row, cfg.width, cfg.height, cfg.pad⟩)
      (rectangle ⟨x2, y2, cfg.column, cfg.row, cfg.width, cfg.height, cfg.pad⟩))

/-- The loop body of the base variant's `Main` (src/unnamed/part_000) for
one argument: on a colon, the fill color is the one-result table lookup of
the part before the colon (zero value on a miss, never an error) and the
cell spec is the part after it; otherwise the fill color comes from the
configuration.  `none` is a coordinate-parse failure. -/
def processArgBase (cfg : Config) (arg : List Char) : Option (Rect × RGBA) :=
  if goContains arg ':' then
    let f := goSplit arg ':'
    match specToRect cfg (f.getD 1 []) with
    | none => none
    | some r => some (r, lookupColorD (f.getD 0 []))
  else
    match specToRect cfg arg with
    | none => none
    | some r => some (r, lookupColorD cfg.fillColor)

/-- Outcome of one run of a `Main` variant's render loop.  `exit code
encoded` is normal termination, with `encoded` recording whether the final
`png.Encode` step was reached (it is the last step, after the whole loop);
the encoder itself is an external collaborator modelled as succeeding.
`panicked` is a Go runtime panic: the program aborts without reaching any
`return` statement of `Main`. -/
inductive MainOutcome where
  | exit (code : Nat) (encoded : Bool)
  | panicked
deriving DecidableEq

/-- The render loop of the base variant's `Main`: process the arguments in
order; the first coordinate-parse failure returns the rectangle-error exit
code before the encode step; when every argument processes, the image is
encoded and the exit code is 0. -/
def MainBase (cfg : Config) : List (List Char) → MainOutcome
  | [] => MainOutcome.exit exitCodeOK true
  | arg :: rest =>
    match processArgBase cfg arg with
    | none => MainOutcome.exit exitCodeRectangleError false
    | some _ => MainBase cfg rest

/-- Result of the extended variant's fill-color resolution for the part
before the colon. `panicOOB` is the out-of-bounds slice access
`cols[1]` / `cols[2]`: in Go a runtime panic, so in this total embedding a
dedicated constructor rather than a value. -/
inductive ColorResult where
  | ok (c : RGBA)
  | err
  | panicOOB
deriving DecidableEq

/-- The color branch of the extended variant's `Main` (src/main.go lines
141–168): a two-result table lookup; on a miss, split the color on commas
and read `cols[0]`, `cols[1]`, `cols[2]` (a panic when there are fewer than
three fields), then `ParseUint(_, 10, 8)` each channel, any failure being a
color error; on success the alpha channel is fixed at 255. -/
def resolveFillColorExt (f0 : List Char) : ColorResult :=
  match lookupColor f0 with
  | some c => ColorResult.ok c
  | none =>
    let cols := goSplit f0 ','
    if 3 ≤ cols.length then
      match parseUint8 (cols.getD 0 []), parseUint8 (cols.getD 1 []),
            parseUint8 (cols.getD 2 []) with
      | some rr, some gg, some bb => ColorResult.ok ⟨rr, gg, bb, 255⟩
      | _, _, _ => ColorResult.err
    else ColorResult.panicOOB

/-- Result of the extended variant's loop body for one argument. -/
inductive ProcResult where
  | ok (dp : Rect × RGBA)
  | colorError
  | rectError
  | panicOOB
deriving DecidableEq

/-- The loop body of the extended variant's `Main` (src/main.go) for one
argument: on a colon, resolve the fill color from the part before it (table
lookup, then the `R,G,B` fallback; a failure there returns before the cell
spec is looked at), then parse the part after the colon; otherwise the fill
color comes from the configuration. -/
def processArgExt (cfg : Config) (arg : List Char) : ProcResult :=
  if goContains arg ':' then
    let f := goSplit arg ':'
    match resolveFillColorExt (f.getD 0 []) with
    | ColorResult.err => ProcResult.colorError
    | ColorResult.panicOOB => ProcResult.panicOOB
    | ColorResult.ok fill =>
      match specToRect cfg (f.getD 1 []) with
      | none => ProcResult.rectError
      | some r => ProcResult.ok (r, fill)
  else
    match specToRect cfg arg with
    | none => ProcResult.rectError
    | some r => ProcResult.ok (r, lookupColorD cfg.fillColor)

/-- The render loop of the extended variant's `Main`: arguments in order,
first failure wins — a color error exits with code 5, a coordinate-parse
failure with code 3, both before the encode step; an out-of-bounds panic
aborts the run; when every argument processes, the image is encoded and the
exit code is 0. -/
def MainExt (cfg : Config) : List (List Char) → MainOutcome
  | [] => MainOutcome.exit exitCodeOK true
  | arg :: rest =>
    match processArgExt cfg arg with
    | ProcResult.colorError => MainOutcome.exit exitCodeColorError false
    | ProcResult.rectError => MainOutcome.exit exitCodeRectangleError false
    | ProcResult.panicOOB => MainOutcome.panicked
    | ProcResult.ok _ => MainExt cfg rest

/-! ### Helper lemmas about the string model -/

/-- A list with no occurrence of the separator splits into the single field
made of the accumulator followed by the list. -/
theorem splitOnAux_no_sep (sep : Char) :
    ∀ a : List Char, sep ∉ a → ∀ acc, splitOnAux sep a acc = [acc.reverse ++ a] := by
  intro a
  induction a with
  | nil => intro _ acc; simp [splitOnAux]
  | cons c cs ih =>
    intro h acc
    rw [List.mem_cons] at h
    push_neg at h
    simp [splitOnAux, Ne.symm h.1, ih h.2]

/-- Splitting `a ++ sep :: b` when `a` has no separator yields `a` as the
first field followed by the fields of `b`. -/
theorem splitOnAux_append (sep : Char) (b : List Char) :
    ∀ a : List Char, sep ∉ a → ∀ acc,
      splitOnAux sep (a ++ sep :: b) acc = (acc.reverse ++ a) :: splitOnAux sep b [] := by
  intro a
  induction a with
  | nil => intro _ acc; simp [splitOnAux]
  | cons c cs ih =>
    intro h acc
    rw [List.mem_cons] at h
    push_neg at h
    simp [splitOnAux, Ne.symm h.1, ih h.2]

/-- `goSplit` of a separator-free list is that single field. -/
theorem goSplit_no_sep (a : List Char) (sep : Char) (h : sep ∉ a) : goSplit a sep = [a] := by
  have := splitOnAux_no_sep sep a h []
  simpa [goSplit] using this

/-- `goSplit (a ++ sep :: b)` keeps `a` as the first field when `a` is
separator-free. -/
theorem goSplit_append (a b : List Char) (sep : Char) (h : sep ∉ a) :
    goSplit (a ++ sep :: b) sep = a :: goSplit b sep := by
  have := splitOnAux_append sep b a h []
  simpa [goSplit] using this

/-- No field produced by `splitOnAux` contains the separator, provided the
accumulator does not. -/
theorem mem_splitOnAux (sep : Char) :
    ∀ (s acc : List Char), sep ∉ acc → ∀ p ∈ splitOnAux sep s acc, sep ∉ p := by
  intro s
  induction s with
  | nil =>
    intro acc hacc p hp
    simp only [splitOnAux, List.mem_singleton] at hp
    subst hp
    exact fun hm => hacc (List.mem_reverse.mp hm)
  | cons c cs ih =>
    intro acc hacc p hp
    simp only [splitOnAux] at hp
    by_cases hc : c = sep
    · rw [if_pos hc] at hp
      rcases List.mem_cons.mp hp with h1 | h1
      · subst h1
        exact fun hm => hacc (List.mem_reverse.mp hm)
      · exact ih [] (by simp) p h1
    · rw [if_neg hc] at hp
      refine ih (c :: acc) ?_ p hp
      rw [List.mem_cons]
      push_neg
      exact ⟨fun hsc => hc hsc.symm, hacc⟩

/-- No field produced by `goSplit` contains the separator. -/
theorem mem_goSplit (s : List Char) (sep : Char) (p : List Char) (hp : p ∈ goSplit s sep) :
    sep ∉ p :=
  mem_splitOnAux sep s [] (by simp) p hp

/-- `getD` returns a member of the list or the default. -/
theorem getD_mem_or_eq {α : Type} :
    ∀ (l : List α) (i : Nat) (d : α), l.getD i d ∈ l ∨ l.getD i d = d := by
  intro l
  induction l with
  | nil => intro i d; right; rfl
  | cons x xs ih =>
    intro i d
    cases i with
    | zero => left; rw [List.getD_cons_zero]; exact List.mem_cons_self x xs
    | succ j =>
      rw [List.getD_cons_succ]
      rcases ih j d with h | h
      · exact Or.inl (List.mem_cons_of_mem x h)
      · exact Or.inr h

/-- `getD` past the end of the list is the default. -/
theorem getD_len_le {α : Type} :
    ∀ (l : List α) (i : Nat) (d : α), l.length ≤ i → l.getD i d = d := by
  intro l
  induction l with
  | nil => intro i d _; rfl
  | cons x xs ih =>
    intro i d h
    cases i with
    | zero => simp at h
    | succ j =>
      rw [List.getD_cons_succ]
      exact ih j d (by simpa using h)

/-- The range-checked decimal value produced by `goAtoi`'s unsigned branches
is non-negative. -/
theorem bind_range_nonneg (o : Option Nat) (v : Int)
    (h : o.bind (fun n => if (n : Int) ≤ int64Max then some ((n : Int)) else none) = some v) :
    0 ≤ v := by
  cases o with
  | none => exact Option.noConfusion h
  | some n =>
    have h' : (if (n : Int) ≤ int64Max then some ((n : Int)) else none) = some v := h
    split at h'
    · injection h' with h2
      omega
    · exact Option.noConfusion h'

/-- `goAtoi` on a hyphen-free string never returns a negative value: the
only way `Atoi` produces a negative number is a leading `'-'`. -/
theorem goAtoi_nonneg (s : List Char) (v : Int) (h : goAtoi s = some v) (hm : '-' ∉ s) :
    0 ≤ v := by
  cases s with
  | nil => exact Option.noConfusion h
  | cons c rest =>
    rw [List.mem_cons] at hm
    push_neg at hm
    simp only [goAtoi] at h
    rw [if_neg (fun hc => hm.1 hc.symm)] at h
    by_cases hp : c = '+'
    · rw [if_pos hp] at h
      exact bind_range_nonneg _ v h
    · rw [if_neg hp] at h
      exact bind_range_nonneg _ v h

/-- A channel accepted by `ParseUint(_, 10, 8)` is at most 255. -/
theorem parseUint8_le (s : List Char) (n : Nat) (h : parseUint8 s = some n) : n ≤ 255 := by
  simp only [parseUint8] at h
  split at h
  · split at h
    · injection h with h'
      omega
    · exact Option.noConfusion h
  · exact Option.noConfusion h

/-! ### Claims about the coordinate-token parser -/

/-- Claim C1, counterexample: the token `"1-4-7"` does not fail — the
source splits on the hyphen and reads only the first two fields, so it
parses successfully to `(1, 4)`. -/
theorem claim_C1_counterexample :
    splitHyphen (str "1-4-7") = some (1, 4) ∧ splitHyphen (str "1-4-7") ≠ none := by
  decide

/-- Claim C1, amended: for every token of the form `INT "-" INT "-" REST`
whose first two hyphen-fields are valid integers, parsing succeeds and
returns the first two integers, silently ignoring everything after the
second hyphen (so `"1-4-7"` parses to `(1, 4)` rather than failing). -/
theorem claim_C1_amended (a b c : List Char) (va vb : Int)
    (hca : goContains a '-' = false) (hcb : goContains b '-' = false)
    (hva : goAtoi a = some va) (hvb : goAtoi b = some vb) :
    splitHyphen (a ++ '-' :: (b ++ '-' :: c)) = some (va, vb) := by
  have hma : '-' ∉ a := by simpa [goContains] using hca
  have hmb : '-' ∉ b := by simpa [goContains] using hcb
  have h1 : goSplit (a ++ '-' :: (b ++ '-' :: c)) '-' = a :: b :: goSplit c '-' := by
    rw [goSplit_append a _ '-' hma, goSplit_append b c '-' hmb]
  simp only [splitHyphen]
  rw [if_pos (by simp [goContains]), h1]
  simp only [List.getD_cons_zero, List.getD_cons_succ]
  rw [hva, hvb]

/-- Witness for claim C1's amended theorem at the concrete token
`"2-5-9"`. -/
theorem claim_C1_witness : splitHyphen (str "2-5-9") = some (2, 5) :=
  claim_C1_amended (str "2") (str "5") (str "9") 2 5 (by decide) (by decide) (by decide)
    (by decide)

/-- Claim C5: a hyphen-free token that `Atoi` accepts parses to
`start = end = value`, and a token `a ++ "-" ++ b` whose two hyphen-free
parts `Atoi` accepts parses to the two values in order. -/
theorem claim_C5 :
    (∀ (s : List Char) (v : Int), goContains s '-' = false → goAtoi s = some v →
      splitHyphen s = some (v, v)) ∧
    (∀ (a b : List Char) (va vb : Int), goContains a '-' = false →
      goContains b '-' = false → goAtoi a = some va → goAtoi b = some vb →
      splitHyphen (a ++ '-' :: b) = some (va, vb)) := by
  constructor
  · intro s v hc hv
    simp only [splitHyphen]
    rw [if_neg (by simp [hc]), hv]
  · intro a b va vb hca hcb hva hvb
    have hma : '-' ∉ a := by simpa [goContains] using hca
    have hmb : '-' ∉ b := by simpa [goContains] using hcb
    have h1 : goSplit (a ++ '-' :: b) '-' = a :: goSplit b '-' :=
      goSplit_append a b '-' hma
    have h2 : goSplit b '-' = [b] := goSplit_no_sep b '-' hmb
    simp only [splitHyphen]
    rw [if_pos (by simp [goContains]), h1, h2]
    simp only [List.getD_cons_zero, List.getD_cons_succ]
    rw [hva, hvb]

/-- Witness for claim C5 at the tokens `"3"` and `"1-4"`. -/
theorem claim_C5_witness :
    splitHyphen (str "3") = some (3, 3) ∧ splitHyphen (str "1-4") = some (1, 4) :=
  ⟨claim_C5.1 (str "3") 3 (by decide) (by decide),
   claim_C5.2 (str "1") (str "4") 1 4 (by decide) (by decide) (by decide) (by decide)⟩

/-- Claim C7: `minMaxXY` fails on every cell spec without a comma, and on
every cell spec with a comma either of whose first two comma-fields
`splitHyphen` rejects (in particular when a numeric part is not a valid
integer). -/
theorem claim_C7 :
    (∀ s : List Char, goContains s ',' = false → minMaxXY s = none) ∧
    (∀ s : List Char, goContains s ',' = true →
      splitHyphen ((goSplit s ',').getD 0 []) = none ∨
        splitHyphen ((goSplit s ',').getD 1 []) = none →
      minMaxXY s = none) := by
  constructor
  · intro s hc
    simp only [minMaxXY]
    rw [if_neg (by simp [hc])]
  · intro s hc hfail
    simp only [minMaxXY]
    rw [if_pos hc]
    cases h0 : splitHyphen ((goSplit s ',').getD 0 []) with
    | none => rfl
    | some p =>
      obtain ⟨x, x2⟩ := p
      cases h1 : splitHyphen ((goSplit s ',').getD 1 []) with
      | none => rfl
      | some q =>
        rcases hfail with h | h
        · rw [h0] at h; exact Option.noConfusion h
        · rw [h1] at h; exact Option.noConfusion h

/-- Witness for claim C7 at the comma-less spec `"34"` and the
non-numeric spec `"a,0"`. -/
theorem claim_C7_witness :
    minMaxXY (str "34") = none ∧ minMaxXY (str "a,0") = none :=
  ⟨claim_C7.1 (str "34") (by decide),
   claim_C7.2 (str "a,0") (by decide) (Or.inl (by decide))⟩

/-- Claim C10: a token beginning with the hyphen always fails to parse (the
first hyphen-field is empty, which `Atoi` rejects), and every successfully
parsed token yields non-negative coordinates, so the token grammar cannot
express a negative grid coordinate. -/
theorem claim_C10 :
    (∀ s : List Char, s.head? = some '-' → splitHyphen s = none) ∧
    (∀ (s : List Char) (a b : Int), splitHyphen s = some (a, b) → 0 ≤ a ∧ 0 ≤ b) := by
  constructor
  · intro s hs
    cases s with
    | nil => exact Option.noConfusion hs
    | cons c rest =>
      simp only [List.head?, Option.some.injEq] at hs
      subst hs
      have hsplit0 : (goSplit ('-' :: rest) '-').getD 0 [] = [] := by
        simp [goSplit, splitOnAux]
      simp only [splitHyphen]
      rw [if_pos (by simp [goContains]), hsplit0]
      rfl
  · intro s a b h
    simp only [splitHyphen] at h
    by_cases hcont : goContains s '-' = true
    · rw [if_pos hcont] at h
      cases h0 : goAtoi ((goSplit s '-').getD 0 []) with
      | none => rw [h0] at h; exact Option.noConfusion h
      | some x =>
        rw [h0] at h
        cases h1 : goAtoi ((goSplit s '-').getD 1 []) with
        | none => rw [h1] at h; exact Option.noConfusion h
        | some y =>
          rw [h1] at h
          have h' : some (x, y) = some (a, b) := h
          injection h' with h''
          injection h'' with hxa hyb
          rw [← hxa, ← hyb]
          constructor
          · rcases getD_mem_or_eq (goSplit s '-') 0 [] with hmem | heq
            · exact goAtoi_nonneg _ x h0 (mem_goSplit s '-' _ hmem)
            · rw [heq] at h0; exact Option.noConfusion h0
          · rcases getD_mem_or_eq (goSplit s '-') 1 [] with hmem | heq
            · exact goAtoi_nonneg _ y h1 (mem_goSplit s '-' _ hmem)
            · rw [heq] at h1; exact Option.noConfusion h1
    · rw [if_neg hcont] at h
      cases h0 : goAtoi s with
      | none => rw [h0] at h; exact Option.noConfusion h
      | some x =>
        rw [h0] at h
        have h' : some (x, x) = some (a, b) := h
        injection h' with h''
        injection h'' with hxa hyb
        rw [← hxa, ← hyb]
        have hm : '-' ∉ s := by
          intro hmem
          exact hcont (by simp [goContains, hmem])
        exact ⟨goAtoi_nonneg s x h0 hm, goAtoi_nonneg s x h0 hm⟩

/-- Witness for claim C10 at the token `"-3"` (fails) and the parsed token
`"1-4"` (both coordinates non-negative). -/
theorem claim_C10_witness :
    splitHyphen (str "-3") = none ∧ (0 ≤ (1 : Int) ∧ 0 ≤ (4 : Int)) :=
  ⟨claim_C10.1 (str "-3") (by decide),
   claim_C10.2 (str "1-4") 1 4 (by decide)⟩

/-! ### Claims about the grid-cell-to-rectangle mapper and the span merge -/

/-- Claim C2: for positive column and row counts, the mapper returns the
rectangle with `minX = col*(width/columns) + pad`, `minY = row*(height/rows)
+ pad`, `maxX = (col+1)*(width/columns) - pad`, `maxY = (row+1)*
(height/rows) - pad` under truncating division; its width is `width/columns
- 2*pad` and its height `height/rows - 2*pad`, the width independent of the
row; and cell `(0,0)` under the default 200×200 canvas, 4×4 grid and pad 5
maps to `(5,5)-(45,45)`. -/
theorem claim_C2 (col row rowB columns rows width height pad : Int)
    (hcol : 0 < columns) (hrow : 0 < rows) :
    (rectangle ⟨col, row, columns, rows, width, height, pad⟩).minX
        = col * Int.tdiv width columns + pad ∧
    (rectangle ⟨col, row, columns, rows, width, height, pad⟩).minY
        = row * Int.tdiv height rows + pad ∧
    (rectangle ⟨col, row, columns, rows, width, height, pad⟩).maxX
        = (col + 1) * Int.tdiv width columns - pad ∧
    (rectangle ⟨col, row, columns, rows, width, height, pad⟩).maxY
        = (row + 1) * Int.tdiv height rows - pad ∧
    (rectangle ⟨col, row, columns, rows, width, height, pad⟩).maxX
        - (rectangle ⟨col, row, columns, rows, width, height, pad⟩).minX
        = Int.tdiv width columns - 2 * pad ∧
    (rectangle ⟨col, row, columns, rows, width, height, pad⟩).maxY
        - (rectangle ⟨col, row, columns, rows, width, height, pad⟩).minY
        = Int.tdiv height rows - 2 * pad ∧
    (rectangle ⟨col, rowB, columns, rows, width, height, pad⟩).maxX
        - (rectangle ⟨col, rowB, columns, rows, width, height, pad⟩).minX
        = (rectangle ⟨col, row, columns, rows, width, height, pad⟩).maxX
          - (rectangle ⟨col, row, columns, rows, width, height, pad⟩).minX ∧
    rectangle ⟨0, 0, 4, 4, 200, 200, 5⟩ = ⟨5, 5, 45, 45⟩ := by
  refine ⟨rfl, rfl, rfl, rfl, ?_, ?_, ?_, by decide⟩
  all_goals first
    | (simp only [rectangle]; ring)
    | simp only [rectangle]

/-- Witness for claim C2's theorem at cell `(2,3)` (and `(2,1)` for the row
independence) in the default configuration. -/
theorem claim_C2_witness :
    (rectangle ⟨2, 3, 4, 4, 200, 200, 5⟩).minX = 2 * Int.tdiv 200 4 + 5 ∧
    (rectangle ⟨2, 3, 4, 4, 200, 200, 5⟩).minY = 3 * Int.tdiv 200 4 + 5 ∧
    (rectangle ⟨2, 3, 4, 4, 200, 200, 5⟩).maxX = (2 + 1) * Int.tdiv 200 4 - 5 ∧
    (rectangle ⟨2, 3, 4, 4, 200, 200, 5⟩).maxY = (3 + 1) * Int.tdiv 200 4 - 5 ∧
    (rectangle ⟨2, 3, 4, 4, 200, 200, 5⟩).maxX - (rectangle ⟨2, 3, 4, 4, 200, 200, 5⟩).minX
        = Int.tdiv 200 4 - 2 * 5 ∧
    (rectangle ⟨2, 3, 4, 4, 200, 200, 5⟩).maxY - (rectangle ⟨2, 3, 4, 4, 200, 200, 5⟩).minY
        = Int.tdiv 200 4 - 2 * 5 ∧
    (rectangle ⟨2, 1, 4, 4, 200, 200, 5⟩).maxX - (rectangle ⟨2, 1, 4, 4, 200, 200, 5⟩).minX
        = (rectangle ⟨2, 3, 4, 4, 200, 200, 5⟩).maxX
          - (rectangle ⟨2, 3, 4, 4, 200, 200, 5⟩).minX ∧
    rectangle ⟨0, 0, 4, 4, 200, 200, 5⟩ = ⟨5, 5, 45, 45⟩ :=
  claim_C2 2 3 1 4 4 200 200 5 (by decide) (by decide)

/-- Claim C3: for every successfully parsed spec, the rectangle handed to
the renderer takes its min corner from the mapped start cell and its max
corner from the mapped end cell positionally (no min/max over corners, so a
reversed range passes through unchanged, as `"2-1,0"` below shows), and
`"1-2,0"` under the default configuration merges to `(55,5)-(145,45)`. -/
theorem claim_C3 (cfg : Config) (xy : List Char) (x y x2 y2 : Int)
    (h : minMaxXY xy = some (x, y, x2, y2)) :
    specToRect cfg xy = some
      ⟨(rectangle ⟨x, y, cfg.column, cfg.row, cfg.width, cfg.height, cfg.pad⟩).minX,
       (rectangle ⟨x, y, cfg.column, cfg.row, cfg.width, cfg.height, cfg.pad⟩).minY,
       (rectangle ⟨x2, y2, cfg.column, cfg.row, cfg.width, cfg.height, cfg.pad⟩).maxX,
       (rectangle ⟨x2, y2, cfg.column, cfg.row, cfg.width, cfg.height, cfg.pad⟩).maxY⟩ ∧
    specToRect defaultConfig (str "1-2,0") = some ⟨55, 5, 145, 45⟩ ∧
    specToRect defaultConfig (str "2-1,0") = some ⟨105, 5, 95, 45⟩ := by
  refine ⟨?_, by decide, by decide⟩
  simp only [specToRect]
  rw [h]
  rfl

/-- Witness for claim C3's theorem at the parsed spec `"3,2"` in the
default configuration. -/
theorem claim_C3_witness :
    specToRect defaultConfig (str "3,2") = some ⟨155, 105, 195, 145⟩ ∧
    specToRect defaultConfig (str "1-2,0") = some ⟨55, 5, 145, 45⟩ ∧
    specToRect defaultConfig (str "2-1,0") = some ⟨105, 5, 95, 45⟩ :=
  claim_C3 defaultConfig (str "3,2") 3 2 3 2 (by decide)

/-! ### Claims about the render loops of the two `Main` variants -/

/-- Claim C4, counterexample: an argument list can contain a coordinate
token that fails to parse and still not exit with the rectangle-error code
3 — in the extended variant an earlier color error exits with code 5 before
the failing coordinate is ever reached. -/
theorem claim_C4_counterexample :
    minMaxXY (str "zz") = none ∧
    MainExt defaultConfig [str "256,0,0:0,0", str "zz"]
        = MainOutcome.exit exitCodeColorError false ∧
    MainOutcome.exit exitCodeColorError false
        ≠ MainOutcome.exit exitCodeRectangleError false := by
  decide

/-- Claim C4, amended: if some argument's coordinate token fails to parse
and every earlier argument processes successfully, the extended `Main`
exits with the rectangle-error code 3 and the encode step is never reached,
so no output image is written; when every argument processes successfully,
the image is encoded and the exit code is 0. -/
theorem claim_C4_amended (cfg : Config) (pre : List (List Char)) (arg : List Char)
    (rest : List (List Char)) :
    ((∀ a ∈ pre, ∃ dp, processArgExt cfg a = ProcResult.ok dp) →
      processArgExt cfg arg = ProcResult.rectError →
      MainExt cfg (pre ++ arg :: rest) = MainOutcome.exit exitCodeRectangleError false) ∧
    ((∀ a ∈ pre, ∃ dp, processArgExt cfg a = ProcResult.ok dp) →
      MainExt cfg pre = MainOutcome.exit exitCodeOK true) := by
  induction pre with
  | nil =>
    constructor
    · intro _ harg
      simp only [List.nil_append, MainExt]
      rw [harg]
    · intro _
      rfl
  | cons p ps ih =>
    constructor
    · intro hpre harg
      obtain ⟨dp, hdp⟩ := hpre p (List.mem_cons_self p ps)
      simp only [List.cons_append, MainExt]
      rw [hdp]
      exact ih.1 (fun a ha => hpre a (List.mem_cons_of_mem p ha)) harg
    · intro hpre
      obtain ⟨dp, hdp⟩ := hpre p (List.mem_cons_self p ps)
      simp only [MainExt]
      rw [hdp]
      exact ih.2 (fun a ha => hpre a (List.mem_cons_of_mem p ha))

/-- Witness for claim C4's amended theorem: `["red:0,0", "zz"]` exits with
code 3 before encoding, and `["red:0,0"]` alone encodes and exits 0. -/
theorem claim_C4_witness :
    MainExt defaultConfig [str "red:0,0", str "zz"]
        = MainOutcome.exit exitCodeRectangleError false ∧
    MainExt defaultConfig [str "red:0,0"] = MainOutcome.exit exitCodeOK true := by
  have hpre : ∀ a ∈ [str "red:0,0"], ∃ dp, processArgExt defaultConfig a = ProcResult.ok dp := by
    intro a ha
    rw [List.mem_singleton] at ha
    subst ha
    exact ⟨(⟨5, 5, 45, 45⟩, ⟨255, 0, 0, 255⟩), by decide⟩
  exact ⟨(claim_C4_amended defaultConfig [str "red:0,0"] (str "zz") []).1 hpre (by decide),
    (claim_C4_amended defaultConfig [str "red:0,0"] (str "zz") []).2 hpre⟩

/-- Claim C6, counterexample: the unresolvable color name `"redd"` does not
terminate the extended variant with exit code 5 — splitting `"redd"` on
commas yields one field, so the accesses `cols[1]`, `cols[2]` are out of
bounds and the run aborts by panic instead. -/
theorem claim_C6_counterexample :
    lookupColor (str "redd") = none ∧
    MainExt defaultConfig [str "redd:0,0"] = MainOutcome.panicked ∧
    MainOutcome.panicked ≠ MainOutcome.exit exitCodeColorError false := by
  decide

/-- Claim C6, amended: in the extended variant a color not in the table is
parsed as a decimal `R,G,B` triplet with each channel in 0–255 and alpha
fixed at 255; an unresolvable triplet with at least three comma-fields is a
fatal color error exiting with code 5 before any output is written (an
unresolvable color with fewer than three comma-fields instead aborts by
panic — see claim C9). -/
theorem claim_C6_amended :
    (∀ (f0 : List Char) (rr gg bb : Nat),
      lookupColor f0 = none →
      parseUint8 ((goSplit f0 ',').getD 0 []) = some rr →
      parseUint8 ((goSplit f0 ',').getD 1 []) = some gg →
      parseUint8 ((goSplit f0 ',').getD 2 []) = some bb →
      resolveFillColorExt f0 = ColorResult.ok ⟨rr, gg, bb, 255⟩ ∧
        rr ≤ 255 ∧ gg ≤ 255 ∧ bb ≤ 255) ∧
    (∀ f0 : List Char, lookupColor f0 = none → 3 ≤ (goSplit f0 ',').length →
      (parseUint8 ((goSplit f0 ',').getD 0 []) = none ∨
        parseUint8 ((goSplit f0 ',').getD 1 []) = none ∨
        parseUint8 ((goSplit f0 ',').getD 2 []) = none) →
      resolveFillColorExt f0 = ColorResult.err) ∧
    (∀ (cfg : Config) (f0 xy : List Char) (rest : List (List Char)),
      goContains f0 ':' = false →
      resolveFillColorExt f0 = ColorResult.err →
      MainExt cfg ((f0 ++ ':' :: xy) :: rest) = MainOutcome.exit exitCodeColorError false) := by
  refine ⟨?_, ?_, ?_⟩
  · intro f0 rr gg bb hl h0 h1 h2
    have hlen : 3 ≤ (goSplit f0 ',').length := by
      by_contra hc
      push_neg at hc
      have heq : (goSplit f0 ',').getD 2 [] = [] := getD_len_le _ 2 [] (by omega)
      rw [heq] at h2
      exact Option.noConfusion h2
    refine ⟨?_, parseUint8_le _ _ h0, parseUint8_le _ _ h1, parseUint8_le _ _ h2⟩
    simp only [resolveFillColorExt]
    rw [hl, if_pos hlen, h0, h1, h2]
  · intro f0 hl hlen hnone
    simp only [resolveFillColorExt]
    rw [hl, if_pos hlen]
    cases hp0 : parseUint8 ((goSplit f0 ',').getD 0 []) with
    | none => rfl
    | some r0 =>
      cases hp1 : parseUint8 ((goSplit f0 ',').getD 1 []) with
      | none => rfl
      | some r1 =>
        cases hp2 : parseUint8 ((goSplit f0 ',').getD 2 []) with
        | none => rfl
        | some r2 =>
          exfalso
          rcases hnone with h | h | h
          · rw [hp0] at h; exact Option.noConfusion h
          · rw [hp1] at h; exact Option.noConfusion h
          · rw [hp2] at h; exact Option.noConfusion h
  · intro cfg f0 xy rest hcolon herr
    have hm : ':' ∉ f0 := by simpa [goContains] using hcolon
    have hsplit : goSplit (f0 ++ ':' :: xy) ':' = f0 :: goSplit xy ':' :=
      goSplit_append f0 xy ':' hm
    have harg : processArgExt cfg (f0 ++ ':' :: xy) = ProcResult.colorError := by
      simp only [processArgExt]
      rw [if_pos (by simp [goContains]), hsplit]
      simp only [List.getD_cons_zero]
      rw [herr]
    simp only [MainExt]
    rw [harg]

/-- Witness for claim C6's amended theorem: `"75,0,0"` resolves to the
RGBA value `(75,0,0,255)`, `"256,0,0"` is a color error, and the spec
`"256,0,0:0,0"` makes the extended variant exit with code 5. -/
theorem claim_C6_witness :
    (resolveFillColorExt (str "75,0,0") = ColorResult.ok ⟨75, 0, 0, 255⟩ ∧
      75 ≤ 255 ∧ 0 ≤ 255 ∧ 0 ≤ 255) ∧
    resolveFillColorExt (str "256,0,0") = ColorResult.err ∧
    MainExt defaultConfig [str "256,0,0:0,0"] = MainOutcome.exit exitCodeColorError false := by
  refine ⟨claim_C6_amended.1 (str "75,0,0") 75 0 0 (by decide) (by decide) (by decide)
      (by decide),
    claim_C6_amended.2.1 (str "256,0,0") (by decide) (by decide) (Or.inl (by decide)), ?_⟩
  exact claim_C6_amended.2.2 defaultConfig (str "256,0,0") (str "0,0") [] (by decide)
    (claim_C6_amended.2.1 (str "256,0,0") (by decide) (by decide) (Or.inl (by decide)))

/-- Claim C8: in the base variant an unknown color name before the colon
yields the zero-value RGBA (transparent) as the fill color, and the run
continues with no error: the loop proceeds to the remaining arguments. -/
theorem claim_C8 (cfg : Config) (f0 xy : List Char) (rest : List (List Char)) (r : Rect)
    (hcolon : goContains f0 ':' = false)
    (hxy : goContains xy ':' = false)
    (hl : lookupColor f0 = none)
    (hr : specToRect cfg xy = some r) :
    processArgBase cfg (f0 ++ ':' :: xy) = some (r, ⟨0, 0, 0, 0⟩) ∧
    MainBase cfg ((f0 ++ ':' :: xy) :: rest) = MainBase cfg rest := by
  have hmf : ':' ∉ f0 := by simpa [goContains] using hcolon
  have hmxy : ':' ∉ xy := by simpa [goContains] using hxy
  have hsplit : goSplit (f0 ++ ':' :: xy) ':' = f0 :: goSplit xy ':' :=
    goSplit_append f0 xy ':' hmf
  have hone : goSplit xy ':' = [xy] := goSplit_no_sep xy ':' hmxy
  have hproc : processArgBase cfg (f0 ++ ':' :: xy) = some (r, ⟨0, 0, 0, 0⟩) := by
    simp only [processArgBase]
    rw [if_pos (by simp [goContains]), hsplit, hone]
    simp only [List.getD_cons_zero, List.getD_cons_succ]
    rw [hr]
    simp only [lookupColorD, hl]
    rfl
  refine ⟨hproc, ?_⟩
  simp only [MainBase]
  rw [hproc]

/-- Witness for claim C8 at the base-variant spec `"nosuchcolor:0,0"`:
zero-value fill, successful processing, exit code 0. -/
theorem claim_C8_witness :
    processArgBase defaultConfig (str "nosuchcolor:0,0")
        = some (⟨5, 5, 45, 45⟩, ⟨0, 0, 0, 0⟩) ∧
    MainBase defaultConfig [str "nosuchcolor:0,0"] = MainOutcome.exit exitCodeOK true :=
  claim_C8 defaultConfig (str "nosuchcolor") (str "0,0") [] ⟨5, 5, 45, 45⟩
    (by decide) (by decide) (by decide) (by decide)

/-- Claim C9: in the extended variant, a color that is not in the table and
has fewer than three comma-fields makes the accesses `cols[1]`, `cols[2]`
out of slice bounds: the color resolution has no value to return and the
run aborts by runtime panic rather than exiting with the color-error code
5. -/
theorem claim_C9 (cfg : Config) (f0 xy : List Char) (rest : List (List Char))
    (hcolon : goContains f0 ':' = false)
    (hl : lookupColor f0 = none)
    (hlen : (goSplit f0 ',').length < 3) :
    resolveFillColorExt f0 = ColorResult.panicOOB ∧
    MainExt cfg ((f0 ++ ':' :: xy) :: rest) = MainOutcome.panicked := by
  have hm : ':' ∉ f0 := by simpa [goContains] using hcolon
  have hres : resolveFillColorExt f0 = ColorResult.panicOOB := by
    simp only [resolveFillColorExt]
    rw [hl, if_neg (by omega)]
  refine ⟨hres, ?_⟩
  have hsplit : goSplit (f0 ++ ':' :: xy) ':' = f0 :: goSplit xy ':' :=
    goSplit_append f0 xy ':' hm
  have harg : processArgExt cfg (f0 ++ ':' :: xy) = ProcResult.panicOOB := by
    simp only [processArgExt]
    rw [if_pos (by simp [goContains]), hsplit]
    simp only [List.getD_cons_zero]
    rw [hres]
  simp only [MainExt]
  rw [harg]

/-- Witness for claim C9 at the misspelled color spec `"redd:0,0"`. -/
theorem claim_C9_witness :
    resolveFillColorExt (str "redd") = ColorResult.panicOOB ∧
    MainExt defaultConfig [str "redd:0,0"] = MainOutcome.panicked :=
  claim_C9 defaultConfig (str "redd") (str "0,0") [] (by decide) (by decide) (by decide)
